import Mathlib

/-!
Verification of the recbot backend core (src/backend/database.js and
src/backend/index.js): the filename metadata parser, the SQLite-backed
metadata index and its filter/sort/paginate query, the `/api/wav-files`
query facade, the date-range sync loop of `/api/sync-database`, and the
transcode-and-cache pipeline of `/api/audio/*`.

Strings are modelled as `List Char` (the JavaScript code only ever
manipulates them character-wise via split / match / padStart / slice, and
the SQLite comparisons on the relevant columns are byte-wise on ASCII
data).  String literals from the source are injected with `strOf`.
-/

set_option maxRecDepth 10000

namespace Recbot

/-- Character-list strings, the carrier for all modelled JS/SQL strings. -/
abbrev Str := List Char

/-- Injection of a Lean string literal into the model. -/
def strOf (s : String) : Str := s.data

/-- JS `String.prototype.split(sep)` with a single-character separator:
splitting the empty string yields `[""]`, separators at the ends yield
empty fields, no field is ever dropped. -/
def splitOnChar (sep : Char) : Str → List Str
  | [] => [[]]
  | c :: cs =>
    if c = sep then [] :: splitOnChar sep cs
    else
      match splitOnChar sep cs with
      | r :: rs => (c :: r) :: rs
      | [] => [[c]]

/-- Byte-wise (memcmp-style) string `<=`, the SQLite BINARY collation used
for the `call_date` / `call_time` comparisons in the WHERE clauses. -/
def strLe : Str → Str → Bool
  | [], _ => true
  | _ :: _, [] => false
  | a :: as, b :: bs => if a < b then true else if b < a then false else strLe as bs

/-- Byte-wise string `<`, used by the ORDER BY comparator. -/
def strLt : Str → Str → Bool
  | [], [] => false
  | [], _ :: _ => true
  | _ :: _, [] => false
  | a :: as, b :: bs => if a < b then true else if b < a then false else strLt as bs

/-- Whitespace test for JS `trim` / `parseInt` leading-space skipping. -/
def isJsSpace (c : Char) : Bool :=
  c = ' ' ∨ c = '\t' ∨ c = '\n' ∨ c = '\r'

/-- JS `String.prototype.trim`. -/
def trimStr (s : Str) : Str :=
  ((s.dropWhile isJsSpace).reverse.dropWhile isJsSpace).reverse

/-- Numeric value of a non-empty decimal digit run. -/
def digitsToNat (ds : Str) : Nat :=
  ds.foldl (fun a c => a * 10 + (c.toNat - 48)) 0

/-- Leading-digit-run value, `none` when there is no leading digit. -/
def leadingDigitsVal (cs : Str) : Option Nat :=
  let ds := cs.takeWhile Char.isDigit
  if ds = [] then none else some (digitsToNat ds)

/-- JS `parseInt(s, 10)`: skip leading whitespace, optional sign, then a
leading decimal digit run; `none` models the `NaN` result. -/
def jsParseInt (s : Str) : Option Int :=
  let cs := s.dropWhile isJsSpace
  match cs with
  | '-' :: rest => (leadingDigitsVal rest).map (fun n => -(n : Int))
  | '+' :: rest => (leadingDigitsVal rest).map (fun n => (n : Int))
  | _ => (leadingDigitsVal cs).map (fun n => (n : Int))

/-- JS `String.prototype.padStart(2, '0')`. -/
def padStart2 (s : Str) : Str :=
  if 2 ≤ s.length then s else List.replicate (2 - s.length) '0' ++ s

/-- Lower-casing for the SQLite `LIKE` operator (case-insensitive on ASCII). -/
def lowerStr (s : Str) : Str := s.map Char.toLower

/-- Substring test: does `needle` occur inside `hay`? -/
def containsSub (hay needle : Str) : Bool :=
  if needle.isPrefixOf hay then true
  else
    match hay with
    | [] => false
    | _ :: t => containsSub t needle

/-- SQLite `col LIKE '%' || ? || '%'` with a wildcard-free bound value:
case-insensitive substring containment. -/
def likeContains (hay needle : Str) : Bool :=
  containsSub (lowerStr hay) (lowerStr needle)

/-- Decimal digit character of a value below 10. -/
def digitChar (n : Nat) : Char := Char.ofNat (48 + n)

/-- Fuel-driven decimal rendering helper (structural, so it reduces). -/
def natDigitsAux : Nat → Nat → Str
  | 0, _ => []
  | fuel + 1, n =>
    if n < 10 then [digitChar n]
    else natDigitsAux fuel (n / 10) ++ [digitChar (n % 10)]

/-- Decimal rendering of a natural number, JS `${n}` for n >= 0. -/
def natToStr (n : Nat) : Str := natDigitsAux (n + 1) n

/-- Decimal rendering of an integer, JS `${n}`. -/
def intToStr (n : Int) : Str :=
  if n < 0 then '-' :: natToStr n.natAbs else natToStr n.natAbs

/-! ## Filename metadata parser (`parseFileMetadata`, database.js lines 231-279) -/

/-- Result record of `parseFileMetadata`. -/
structure FileMeta where
  filePath : Str
  phone : Str
  email : Str
  callDate : Str
  callTime : Str
  durationMs : Nat
  fileSize : Nat
deriving DecidableEq, Repr

/-- Attempt of the regex `by ([^@]+@[^ ]+)` at one fixed start position:
a literal `by `, a non-empty run without `@`, a literal `@`, then a
non-empty run without a space. -/
def matchEmailAt (cs : Str) : Option Str :=
  if (strOf "by ").isPrefixOf cs then
    let rest := cs.drop 3
    let localPart := rest.takeWhile (fun c => ¬ c = '@')
    match rest.drop localPart.length with
    | '@' :: afterAt =>
      if localPart = [] then none
      else
        let domain := afterAt.takeWhile (fun c => ¬ c = ' ')
        if domain = [] then none else some (localPart ++ '@' :: domain)
    | _ => none
  else none

/-- JS `filename.match(/by ([^@]+@[^ ]+)/)`: first position where the
pattern matches, capture group or the empty default. -/
def matchEmail : Str → Str
  | [] => []
  | c :: cs =>
    match matchEmailAt (c :: cs) with
    | some e => e
    | none => matchEmail cs

/-- Attempt of the regex `@ ([\d_]+ [AP]M)` at one fixed start position. -/
def matchTimeAt (cs : Str) : Option Str :=
  if (strOf "@ ").isPrefixOf cs then
    let rest := cs.drop 2
    let run := rest.takeWhile (fun c => c.isDigit ∨ c = '_')
    if run = [] then none
    else
      match rest.drop run.length with
      | ' ' :: m :: 'M' :: _ =>
        if m = 'A' ∨ m = 'P' then some (run ++ [' ', m, 'M']) else none
      | _ => none
  else none

/-- JS `filename.match(/@ ([\d_]+ [AP]M)/)`: first matching position. -/
def matchTime : Str → Option Str
  | [] => none
  | c :: cs =>
    match matchTimeAt (c :: cs) with
    | some t => some t
    | none => matchTime cs

/-- JS `filename.match(/_(\d+)\.wav$/)`: the digit run immediately before a
final `.wav`, provided an underscore precedes it; default duration 0. -/
def matchDuration (filename : Str) : Nat :=
  let rev := filename.reverse
  if (strOf "vaw.").isPrefixOf rev then
    let rest := rev.drop 4
    let digs := rest.takeWhile Char.isDigit
    if digs = [] then 0
    else
      match rest.drop digs.length with
      | '_' :: _ => digitsToNat digs.reverse
      | _ => 0
  else 0

/-- One `H`/`HH` style component as a number, `none` if not all digits. -/
def timeComp (s : Str) : Option Nat :=
  if s ≠ [] ∧ s.all Char.isDigit then some (digitsToNat s) else none

/-- Two-digit rendering of a time component. -/
def pad2Nat (n : Nat) : Str := padStart2 (natToStr n)

/-- Conversion of the captured 12-hour time (underscores already replaced
by colons, e.g. `9:47:43 AM`) to 24-hour `HH:MM:SS`.  The source does this
with `new Date('1970-01-01 ' + timeStr).toTimeString().slice(0, 8)`, whose
exact grammar is host (V8) behaviour; modelled as: `h[:mm[:ss]] AM|PM`
with `1 <= h <= 12`, `mm, ss <= 59` parses, anything else yields the empty
string, matching the spec's description of the time normalization. -/
def normalizeTime (timeStr : Str) : Str :=
  match splitOnChar ' ' timeStr with
  | [hms, ampm] =>
    if ampm = strOf "AM" ∨ ampm = strOf "PM" then
      let comps := splitOnChar ':' hms
      let parsed :=
        match comps with
        | [h] => (timeComp h).map (fun hv => (hv, 0, 0))
        | [h, m] =>
          match timeComp h, timeComp m with
          | some hv, some mv => some (hv, mv, 0)
          | _, _ => none
        | [h, m, s] =>
          match timeComp h, timeComp m, timeComp s with
          | some hv, some mv, some sv => some (hv, mv, sv)
          | _, _, _ => none
        | _ => none
      match parsed with
      | some (hv, mv, sv) =>
        if 1 ≤ hv ∧ hv ≤ 12 ∧ mv ≤ 59 ∧ sv ≤ 59 then
          let h24 :=
            if ampm = strOf "AM" then (if hv = 12 then 0 else hv)
            else (if hv = 12 then 12 else hv + 12)
          pad2Nat h24 ++ ':' :: pad2Nat mv ++ ':' :: pad2Nat sv
        else []
      | none => []
    else []
  | _ => []

/-- Date-folder normalization inside `parseFileMetadata`: exactly three
underscore-separated tokens are required (their content is not inspected),
and the date is rebuilt as `year-month-day` with `padStart(2, '0')` on
month and day. -/
def parseCallDate (folder : Str) : Option Str :=
  let dateParts := splitOnChar '_' folder
  if dateParts.length ≠ 3 then none
  else
    some ((dateParts.getD 2 []) ++ '-' ::
      (padStart2 (dateParts.getD 0 []) ++ '-' :: padStart2 (dateParts.getD 1 [])))

/-- The `recordings/` prefix strip at the top of `parseFileMetadata`. -/
def cleanFileOf (filePath : Str) : Str :=
  if (strOf "recordings/").isPrefixOf filePath then filePath.drop 11 else filePath

/-- The `folder` of the `const [folder, filename] = cleanFile.split('/')`
destructuring. -/
def folderOf (filePath : Str) : Str :=
  (splitOnChar '/' (cleanFileOf filePath)).getD 0 []

/-- The `filename` of the same destructuring (`[]` doubles for the falsy
`undefined` of a missing second field). -/
def filenameOf (filePath : Str) : Str :=
  (splitOnChar '/' (cleanFileOf filePath)).getD 1 []

/-- The time-extraction steps of `parseFileMetadata`: regex match, the
`replace(/_/g, ':')`, the falsy guard, and the 24-hour normalization. -/
def parseCallTime (filename : Str) : Str :=
  match matchTime filename with
  | some t =>
    let timeStr := t.map (fun c => if c = '_' then ':' else c)
    if timeStr = [] then [] else normalizeTime timeStr
  | none => []

/-- Embedding of `parseFileMetadata(filePath)` from database.js: strip the root prefix,
destructure `{folder}/{filename}`, fail hard when either part is falsy or
the folder does not split into exactly three `_` tokens, and otherwise
extract phone / email / time / duration independently with empty-ish
defaults. -/
def parseFileMetadata (filePath : Str) : Option FileMeta :=
  if folderOf filePath = [] ∨ filenameOf filePath = [] then none
  else
    match parseCallDate (folderOf filePath) with
    | none => none
    | some callDate =>
      some { filePath := filePath
             phone := (filenameOf filePath).takeWhile Char.isDigit
             email := matchEmail (filenameOf filePath)
             callDate := callDate
             callTime := parseCallTime (filenameOf filePath)
             durationMs := matchDuration (filenameOf filePath)
             fileSize := 0 }

/-! ## Metadata index (`files` table, `statements.upsertFile` / `indexFile` /
`indexFiles` / `queryFiles`, database.js lines 95-397) -/

/-- One row of the `files` table (the columns the query engine touches;
`id` and the timestamps are not read by any modelled statement). -/
structure FileRow where
  file_path : Str
  phone : Str
  email : Str
  call_date : Str
  call_time : Str
  duration_ms : Int
  file_size : Int
deriving DecidableEq, Repr

/-- The `files` table, ordered by rowid (insertion order). -/
abbrev Table := List FileRow

/-- Embedding of `statements.upsertFile`: `INSERT ... ON CONFLICT(file_path) DO UPDATE`
— overwrite all derived columns of the existing row, or append a new row. -/
def upsertFile (t : Table) (m : FileMeta) (fileSize : Int) : Table :=
  if t.any (fun r => r.file_path == m.filePath) then
    t.map (fun r =>
      if r.file_path == m.filePath then
        { r with phone := m.phone, email := m.email, call_date := m.callDate,
                 call_time := m.callTime, duration_ms := (m.durationMs : Int),
                 file_size := fileSize }
      else r)
  else
    t ++ [{ file_path := m.filePath, phone := m.phone, email := m.email,
            call_date := m.callDate, call_time := m.callTime,
            duration_ms := (m.durationMs : Int), file_size := fileSize }]

/-- Embedding of `indexFile(filePath, fileSize)`: parse, return `false` (no change) on a
parse failure, upsert otherwise. -/
def indexFile (t : Table) (filePath : Str) (fileSize : Int) : Table × Bool :=
  match parseFileMetadata filePath with
  | none => (t, false)
  | some m => (upsertFile t m fileSize, true)

/-- N repeated `indexFile` calls on the same key with the same size. -/
def indexFileNTimes (t : Table) (filePath : Str) (fileSize : Int) : Nat → Table
  | 0 => t
  | n + 1 => (indexFile (indexFileNTimes t filePath fileSize n) filePath fileSize).1

/-- Number of rows of a table carrying a given `file_path`. -/
def countKey (t : Table) (key : Str) : Nat :=
  (t.filter (fun r => r.file_path == key)).length

/-- Embedding of `indexFiles(files)`: one transaction of `indexFile` calls over a list of
plain string keys, returning the count of successfully indexed files. -/
def indexFiles (t : Table) (files : List Str) : Table × Nat :=
  files.foldl
    (fun acc f =>
      let r := indexFile acc.1 f 0
      (r.1, acc.2 + (if r.2 then 1 else 0)))
    (t, 0)

/-- Embedding of `convertDateFormat(dateStr)` from database.js: if the string contains an
underscore, destructure the first three `_` fields as month / day / year
(a missing third field appears as the string `undefined` in the template
literal) and rebuild `year-month-day` with `padStart(2, '0')`; otherwise
return the string unchanged. -/
def convertDateFormat (dateStr : Str) : Str :=
  if dateStr.any (fun c => c = '_') then
    let parts := splitOnChar '_' dateStr
    (parts.getD 2 (strOf "undefined")) ++ '-' ::
      (padStart2 (parts.getD 0 []) ++ '-' :: padStart2 (parts.getD 1 []))
  else dateStr

/-- The shared WHERE clause of `statements.getFiles` and
`statements.countFiles`: every filter is `(? IS NULL OR <predicate>)`.
`call_date` / `call_time` compare byte-wise, `phone` / `email` use
`LIKE '%'||?||'%'`, and the duration filter is `duration_ms >= ? * 1000`
(a minimum — the SQL has no other direction). -/
def matchesWhere (dateStart dateEnd phone email : Option Str)
    (durationMin : Option Int) (timeStart timeEnd : Option Str)
    (r : FileRow) : Bool :=
  (match dateStart with | none => true | some d => strLe d r.call_date) &&
  (match dateEnd with | none => true | some d => strLe r.call_date d) &&
  (match phone with | none => true | some p => likeContains r.phone p) &&
  (match email with | none => true | some e => likeContains r.email e) &&
  (match durationMin with | none => true | some m => decide (m * 1000 ≤ r.duration_ms)) &&
  (match timeStart with | none => true | some ts => strLe ts r.call_time) &&
  (match timeEnd with | none => true | some te => strLe r.call_time te)

/-- Three-way byte-wise string comparison for the ORDER BY keys. -/
def cmpStr (a b : Str) : Ordering :=
  if strLt a b then .lt else if strLt b a then .gt else .eq

/-- Three-way integer comparison for the `duration_ms` ORDER BY key. -/
def cmpInt (a b : Int) : Ordering :=
  if a < b then .lt else if b < a then .gt else .eq

/-- The ORDER BY of `statements.getFiles`: one active CASE key selected by
`(sortColumn, sortDirection)` (every other CASE is NULL on all rows, i.e. a
universal tie), then the fixed tiebreak `call_date DESC, call_time DESC`. -/
def rowOrder (sortColumn sortDirection : Str) (a b : FileRow) : Ordering :=
  let primary : Ordering :=
    if sortColumn = strOf "date" ∧ sortDirection = strOf "asc" then cmpStr a.call_date b.call_date
    else if sortColumn = strOf "date" ∧ sortDirection = strOf "desc" then cmpStr b.call_date a.call_date
    else if sortColumn = strOf "time" ∧ sortDirection = strOf "asc" then cmpStr a.call_time b.call_time
    else if sortColumn = strOf "time" ∧ sortDirection = strOf "desc" then cmpStr b.call_time a.call_time
    else if sortColumn = strOf "phone" ∧ sortDirection = strOf "asc" then cmpStr a.phone b.phone
    else if sortColumn = strOf "phone" ∧ sortDirection = strOf "desc" then cmpStr b.phone a.phone
    else if sortColumn = strOf "email" ∧ sortDirection = strOf "asc" then cmpStr a.email b.email
    else if sortColumn = strOf "email" ∧ sortDirection = strOf "desc" then cmpStr b.email a.email
    else if sortColumn = strOf "durationMs" ∧ sortDirection = strOf "asc" then cmpInt a.duration_ms b.duration_ms
    else if sortColumn = strOf "durationMs" ∧ sortDirection = strOf "desc" then cmpInt b.duration_ms a.duration_ms
    else .eq
  match primary with
  | .eq =>
    match cmpStr b.call_date a.call_date with
    | .eq => cmpStr b.call_time a.call_time
    | o => o
  | o => o

/-- Boolean `<=` induced by `rowOrder`, used by the sort. -/
def rowLe (sortColumn sortDirection : Str) (a b : FileRow) : Bool :=
  rowOrder sortColumn sortDirection a b ≠ .gt

/-- Ordered insertion (structurally recursive, so witnesses compute). -/
def insertSorted (le : FileRow → FileRow → Bool) (x : FileRow) : Table → Table
  | [] => [x]
  | y :: ys => if le x y then x :: y :: ys else y :: insertSorted le x ys

/-- The ORDER BY as a sort of the filtered rows.  SQL prescribes only the
ordering, not an algorithm; insertion sort realises it. -/
def sortRows (sortColumn sortDirection : Str) (t : Table) : Table :=
  t.foldr (insertSorted (rowLe sortColumn sortDirection)) []

/-- SQLite `OFFSET ?`: a negative or zero offset drops nothing. -/
def applyOffset (offset : Int) (rows : Table) : Table :=
  if offset ≤ 0 then rows else rows.drop offset.toNat

/-- SQLite `LIMIT ?`: a negative limit means no limit. -/
def applyLimit (lim : Int) (rows : Table) : Table :=
  if lim < 0 then rows else rows.take lim.toNat

/-- Filter arguments of `queryFiles` (database.js lines 322-335), with the
destructuring defaults. -/
structure QueryFilters where
  dateStart : Option Str := none
  dateEnd : Option Str := none
  phone : Option Str := none
  email : Option Str := none
  durationMin : Option Int := none
  timeStart : Option Str := none
  timeEnd : Option Str := none
  sortColumn : Str := strOf "date"
  sortDirection : Str := strOf "desc"
  limit : Int := 25
  offset : Int := 0
deriving Repr

/-- Result shape of `queryFiles`. -/
structure QueryResult where
  files : Table
  totalCount : Nat
  hasMore : Bool
deriving DecidableEq, Repr

/-- The `dateStart ? convertDateFormat(dateStart) : null` coercion (empty
strings are falsy). -/
def coerceDate (v : Option Str) : Option Str :=
  match v with
  | none => none
  | some d => if d = [] then none else some (convertDateFormat d)

/-- The rows satisfying the WHERE clause shared verbatim by
`statements.getFiles` and `statements.countFiles`, after the
`convertDateFormat` coercion of the date bounds. -/
def queryMatched (t : Table) (f : QueryFilters) : Table :=
  t.filter (matchesWhere (coerceDate f.dateStart) (coerceDate f.dateEnd)
    f.phone f.email f.durationMin f.timeStart f.timeEnd)

/-- Embedding of `queryFiles(filters)`: run `statements.getFiles` (filter, sort, offset,
limit) and `statements.countFiles` (the count over the identical WHERE
clause), and derive `hasMore = offset + limit < total`. -/
def queryFiles (t : Table) (f : QueryFilters) : QueryResult :=
  { files := applyLimit f.limit
      (applyOffset f.offset (sortRows f.sortColumn f.sortDirection (queryMatched t f)))
    totalCount := (queryMatched t f).length
    hasMore := f.offset + f.limit < ((queryMatched t f).length : Int) }

/-! ## Query facade (`GET /api/wav-files` handler, index.js lines 747-835) -/

/-- Raw HTTP query parameters of `/api/wav-files`; `none` models an absent
parameter (`undefined` after destructuring). -/
structure WavFilesQuery where
  dateStart : Option Str := none
  dateEnd : Option Str := none
  offset : Option Str := none
  limit : Option Str := none
  phone : Option Str := none
  email : Option Str := none
  durationMin : Option Str := none
  durationMode : Option Str := none
  timeStart : Option Str := none
  timeEnd : Option Str := none
  timeMode : Option Str := none
  sortColumn : Option Str := none
  sortDirection : Option Str := none
deriving Repr

/-- The JSON body of a successful `/api/wav-files` response (rows are
field-renamed verbatim from the table rows, so they are kept as rows). -/
structure WavFilesResponse where
  files : Table
  totalCount : Nat
  offset : Int
  limit : Int
  hasMore : Bool
deriving DecidableEq, Repr

/-- Destructuring default: `undefined` falls back, any present string (even
the empty one) is kept. -/
def destrD (v : Option Str) (d : Str) : Str := v.getD d

/-- The `phone?.trim() || null` / `email?.trim() || null` coercion. -/
def trimOrNone (v : Option Str) : Option Str :=
  match v with
  | none => none
  | some s => if trimStr s = [] then none else some (trimStr s)

/-- The `durationMin ? parseInt(durationMin) : null` coercion.  A
non-numeric string gives `parseInt = NaN`, and SQLite stores a bound NaN
as NULL, so the filter predicate `(? IS NULL OR ...)` sees NULL: `none`. -/
def coerceDurationMin (v : Option Str) : Option Int :=
  match v with
  | none => none
  | some s => if s = [] then none else jsParseInt s

/-- The `parseInt(x) || d` coercion used for `limit` and `offset`
(`NaN` and `0` are both falsy and fall back to the default). -/
def coerceIntOr (v : Option Str) (d : Int) : Int :=
  match v with
  | none => d
  | some s =>
    match jsParseInt s with
    | none => d
    | some n => if n = 0 then d else n

/-- The `GET /api/wav-files` handler: coerce the raw query parameters and
delegate to `queryFiles`.  `durationMode` and `timeMode` are destructured
(defaults `"min"` / `"range"`) but are never passed on: `queryFiles` and
the SQL know nothing of them. -/
def wavFilesHandler (t : Table) (q : WavFilesQuery) : WavFilesResponse :=
  let _durationMode := destrD q.durationMode (strOf "min")
  let _timeMode := destrD q.timeMode (strOf "range")
  let filters : QueryFilters :=
    { dateStart := q.dateStart
      dateEnd := q.dateEnd
      phone := trimOrNone q.phone
      email := trimOrNone q.email
      durationMin := coerceDurationMin q.durationMin
      timeStart := q.timeStart
      timeEnd := q.timeEnd
      sortColumn := destrD q.sortColumn (strOf "date")
      sortDirection := destrD q.sortDirection (strOf "desc")
      limit := coerceIntOr q.limit 25
      offset := coerceIntOr q.offset 0 }
  let r := queryFiles t filters
  { files := r.files, totalCount := r.totalCount,
    offset := coerceIntOr q.offset 0, limit := coerceIntOr q.limit 25,
    hasMore := r.hasMore }

/-! ## Date-range sync (`POST /api/sync-database` handler, index.js lines
838-907, date-range branch) -/

/-- Outcome of `listWavFilesFromS3` for one day's prefix: the listed keys,
or a thrown listing error. -/
inductive DayListing where
  | ok (files : List Str)
  | err
deriving DecidableEq, Repr

/-- Outcome of the sync endpoint: the table after the run, the indexed
count, and whether the response was the success JSON (`success: true`)
or the catch-all 500 (`success: false`). -/
structure SyncOutcome where
  table : Table
  indexedCount : Nat
  success : Bool
deriving DecidableEq, Repr

/-- The date-range branch of the sync handler.  `days` abstracts the dayjs
walk over the inclusive `startDate..endDate` range: one entry per calendar
day, carrying that day's `listWavFilesFromS3` outcome.  The loop body has
no try/catch, so a listing error propagates to the handler's outer catch:
the loop stops, the remaining days are never listed, already-committed
batches persist, and the response is the 500 error JSON. -/
def syncDateRange (t : Table) (days : List DayListing) : SyncOutcome :=
  match days with
  | [] => { table := t, indexedCount := 0, success := true }
  | .err :: _ => { table := t, indexedCount := 0, success := false }
  | .ok files :: rest =>
    let step := if files.length > 0 then indexFiles t files else (t, 0)
    let r := syncDateRange step.1 rest
    { table := r.table, indexedCount := step.2 + r.indexedCount,
      success := r.success }

/-! ## Transcode-and-cache pipeline (`GET /api/audio/*` handler, index.js
lines 311-483) -/

/-- The S3 bucket: object keys mapped to byte contents. -/
abbrev Store := List (Str × List Nat)

/-- Lookup modelling `HeadObject` / `GetObject` success on a key. -/
def storeGet : Store → Str → Option (List Nat)
  | [], _ => none
  | (k, v) :: rest, key => if k = key then some v else storeGet rest key

/-- Write modelling `PutObject`: overwrite or create the object at a key. -/
def storePut (s : Store) (key : Str) (v : List Nat) : Store :=
  match s with
  | [] => [(key, v)]
  | (k, w) :: rest => if k = key then (key, v) :: rest else (k, w) :: storePut rest key v

/-- A JS number that may be `NaN` (the `parseInt` results flowing through
the range arithmetic of the serve path). -/
inductive JsNum where
  | nan
  | int (n : Int)
deriving DecidableEq, Repr

/-- JS `+` with an integer, `NaN` absorbing. -/
def JsNum.addInt : JsNum → Int → JsNum
  | .nan, _ => .nan
  | .int n, m => .int (n + m)

/-- JS subtraction, `NaN` absorbing. -/
def JsNum.sub : JsNum → JsNum → JsNum
  | .nan, _ => .nan
  | _, .nan => .nan
  | .int a, .int b => .int (a - b)

/-- JS `ToIntegerOrInfinity` as used by `Buffer.slice`: `NaN` becomes 0. -/
def JsNum.toInteger : JsNum → Int
  | .nan => 0
  | .int n => n

/-- JS number-to-string in a template literal. -/
def JsNum.render : JsNum → Str
  | .nan => strOf "NaN"
  | .int n => intToStr n

/-- JS `parseInt` producing a JS number. -/
def jsParseIntNum (s : Str) : JsNum :=
  match jsParseInt s with
  | none => .nan
  | some n => .int n

/-- One-sided index clamping of JS `slice` (negative counts from the end). -/
def jsSliceIdx (len : Nat) (i : Int) : Nat :=
  if i < 0 then (max ((len : Int) + i) 0).toNat else (min i (len : Int)).toNat

/-- JS `Buffer.prototype.slice(start, end)`. -/
def jsSlice (l : List Nat) (start stop : Int) : List Nat :=
  (l.take (jsSliceIdx l.length stop)).drop (jsSliceIdx l.length start)

/-- Removal of the first occurrence of a pattern, JS
`str.replace(/bytes=/, "")` (the regex is not anchored). -/
def replaceFirst (cs pat : Str) : Str :=
  match cs with
  | [] => []
  | c :: rest =>
    if pat ≠ [] ∧ pat.isPrefixOf (c :: rest) then (c :: rest).drop pat.length
    else c :: replaceFirst rest pat

/-- Behaviour of the spawned ffmpeg process for one request: a spawn
`error` event, or a `close` event with an exit code and the bytes it wrote
to the temp file. -/
inductive FfmpegOutcome where
  | spawnError
  | exit (code : Nat) (output : List Nat)
deriving DecidableEq, Repr

/-- The HTTP response of the audio handler, as far as the pipeline claims
observe it. -/
inductive AudioResponse where
  | cachedStream (status : Nat) (key : Str) (ranged : Bool)
  | rangedBuffer (status : Nat) (contentRange : Str) (contentLength : JsNum) (body : List Nat)
  | fullBuffer (body : List Nat)
  | serverError (msg : Str)
  | notFound
deriving DecidableEq, Repr

/-- Observable outcome of one `/api/audio/*` request: the bucket after the
request, the response, how many ffmpeg processes were spawned, which keys
were `PutObject`-ed (in order), and whether no temp file was left behind. -/
structure AudioOutcome where
  store : Store
  response : AudioResponse
  spawnCount : Nat
  uploads : List Str
  tempCleaned : Bool
deriving DecidableEq, Repr

/-- The `recordings/` prefixing of the request path (index.js line 318). -/
def s3KeyOf (filename : Str) : Str :=
  if (strOf "recordings/").isPrefixOf filename then filename
  else strOf "recordings/" ++ filename

/-- The audio cache key: `cache/wav/` + md5-hex of the s3 key + `.wav`.
The md5 digest is abstracted as an arbitrary function `hash` — every
pipeline theorem holds for every choice, and determinism (same key, same
artifact) is exactly function application. -/
def audioCacheKey (hash : Str → Str) (s3Key : Str) : Str :=
  strOf "cache/wav/" ++ hash s3Key ++ strOf ".wav"

/-- The range-request slice of the cache-miss serve path (index.js lines
442-456): strip `bytes=`, split on `-`, `parseInt` both ends (a missing or
empty second part defaults to `fileData.length - 1`), then answer 206 with
`Content-Range: bytes start-end/total` and the `slice(start, end + 1)`. -/
def serveRanged (fileData : List Nat) (range : Str) : AudioResponse :=
  let parts := splitOnChar '-' (replaceFirst range (strOf "bytes="))
  let start := jsParseIntNum (parts.getD 0 [])
  let stop :=
    if parts.getD 1 [] ≠ [] then jsParseIntNum (parts.getD 1 [])
    else .int ((fileData.length : Int) - 1)
  let chunksize := (stop.sub start).addInt 1
  let body := jsSlice fileData start.toInteger (stop.addInt 1).toInteger
  .rangedBuffer 206
    (strOf "bytes " ++ start.render ++ '-' :: stop.render ++ '/' :: natToStr fileData.length)
    chunksize body

/-- The `GET /api/audio/*` handler for one request: cache probe
(`HeadObject` on the cache key), on a hit a ranged/full stream of the cache
object; on a miss fetch the source (absent source: the outer catch's 404),
spawn ffmpeg, and in its `close`/`error` handlers either report the 500
conversion error and delete the temp file, or upload the converted buffer
to the cache key once and serve it (range-sliced when requested), deleting
the temp file on every exit path. -/
def audioStreamHandler (hash : Str → Str) (store : Store) (filename : Str)
    (rangeHeader : Option Str) (ffmpeg : FfmpegOutcome) : AudioOutcome :=
  let s3Key := s3KeyOf filename
  let cacheKey := audioCacheKey hash s3Key
  match storeGet store cacheKey with
  | some _ =>
    { store := store
      response := .cachedStream (if rangeHeader.isSome then 206 else 200) cacheKey rangeHeader.isSome
      spawnCount := 0, uploads := [], tempCleaned := true }
  | none =>
    match storeGet store s3Key with
    | none =>
      { store := store, response := .notFound
        spawnCount := 0, uploads := [], tempCleaned := true }
    | some _ =>
      match ffmpeg with
      | .spawnError =>
        { store := store
          response := .serverError (strOf "Audio conversion failed")
          spawnCount := 1, uploads := [], tempCleaned := true }
      | .exit code fileData =>
        if code ≠ 0 then
          { store := store
            response := .serverError (strOf "Failed to convert audio")
            spawnCount := 1, uploads := [], tempCleaned := true }
        else
          { store := storePut store cacheKey fileData
            response :=
              match rangeHeader with
              | some range => serveRanged fileData range
              | none => .fullBuffer fileData
            spawnCount := 1, uploads := [cacheKey], tempCleaned := true }

/-! ## Helper lemmas -/

theorem length_insertSorted (le : FileRow → FileRow → Bool) (x : FileRow) :
    ∀ l : Table, (insertSorted le x l).length = l.length + 1 := by
  intro l
  induction l with
  | nil => rfl
  | cons y ys ih =>
    unfold insertSorted
    by_cases h : le x y = true
    · simp [h]
    · simp [h, ih]

theorem length_sortRows (c d : Str) (t : Table) :
    (sortRows c d t).length = t.length := by
  unfold sortRows
  induction t with
  | nil => rfl
  | cons y ys ih =>
    simp only [List.foldr_cons, length_insertSorted, ih, List.length_cons]

theorem mem_insertSorted (le : FileRow → FileRow → Bool) (x r : FileRow) :
    ∀ l : Table, r ∈ insertSorted le x l → r = x ∨ r ∈ l := by
  intro l
  induction l with
  | nil =>
    intro h
    simp only [insertSorted, List.mem_singleton] at h
    exact Or.inl h
  | cons y ys ih =>
    intro h
    unfold insertSorted at h
    by_cases hle : le x y = true
    · simp only [hle, if_true] at h
      exact List.mem_cons.mp h
    · simp only [hle, if_false] at h
      rcases List.mem_cons.mp h with h2 | h2
      · exact Or.inr (h2 ▸ List.mem_cons_self _ _)
      · rcases ih h2 with h3 | h3
        · exact Or.inl h3
        · exact Or.inr (List.mem_cons_of_mem _ h3)

theorem mem_sortRows (c d : Str) (r : FileRow) (t : Table)
    (h : r ∈ sortRows c d t) : r ∈ t := by
  unfold sortRows at h
  induction t with
  | nil => simp at h
  | cons y ys ih =>
    simp only [List.foldr_cons] at h
    rcases mem_insertSorted _ _ _ _ h with h2 | h2
    · simp [h2]
    · exact List.mem_cons_of_mem _ (ih h2)

theorem strLe_refl (s : Str) : strLe s s = true := by
  induction s with
  | nil => rfl
  | cons c cs ih => simp [strLe, ih]

theorem storeGet_storePut_self (s : Store) (key : Str) (v : List Nat) :
    storeGet (storePut s key v) key = some v := by
  induction s with
  | nil => simp [storePut, storeGet]
  | cons kv rest ih =>
    obtain ⟨k, w⟩ := kv
    unfold storePut
    by_cases h : k = key
    · simp [h, storeGet]
    · simp [h, storeGet, ih]

theorem splitOnChar_length_ge_two_contains (c : Char) (s : Str)
    (h : 2 ≤ (splitOnChar c s).length) : s.any (fun x => x = c) = true := by
  induction s with
  | nil => simp [splitOnChar] at h
  | cons x xs ih =>
    unfold splitOnChar at h
    by_cases hx : x = c
    · simp [hx]
    · simp only [hx, if_false] at h
      have h2 : 2 ≤ (splitOnChar c xs).length := by
        rcases heq : splitOnChar c xs with _ | ⟨r, rs⟩
        · simp [heq] at h
        · simpa [heq] using by simpa [heq] using h
      simp [hx, ih h2]

theorem upsertFile_update_keeps_path (m : FileMeta) (sz : Int) (r : FileRow) :
    ((if r.file_path == m.filePath then
        { r with phone := m.phone, email := m.email, call_date := m.callDate,
                 call_time := m.callTime, duration_ms := (m.durationMs : Int),
                 file_size := sz }
      else r) : FileRow).file_path = r.file_path := by
  by_cases h : (r.file_path == m.filePath) = true <;> simp [h]

theorem countKey_upsertFile (t : Table) (m : FileMeta) (sz : Int)
    (h : countKey t m.filePath ≤ 1) :
    countKey (upsertFile t m sz) m.filePath = 1 := by
  unfold upsertFile countKey
  by_cases hany : t.any (fun r => r.file_path == m.filePath) = true
  · simp only [hany, if_true]
    rw [List.filter_map, List.length_map]
    have hpred : ∀ r : FileRow,
        ((fun r : FileRow => r.file_path == m.filePath) ∘
          (fun r : FileRow =>
            if r.file_path == m.filePath then
              { r with phone := m.phone, email := m.email, call_date := m.callDate,
                       call_time := m.callTime, duration_ms := (m.durationMs : Int),
                       file_size := sz }
            else r)) r = (r.file_path == m.filePath) := by
      intro r
      simp only [Function.comp_apply]
      rw [upsertFile_update_keeps_path]
    rw [List.filter_congr (fun r _ => hpred r)]
    rcases List.any_eq_true.mp hany with ⟨r, hr, hmatch⟩
    have hmem : r ∈ t.filter (fun r => r.file_path == m.filePath) :=
      List.mem_filter.mpr ⟨hr, hmatch⟩
    have hpos : 1 ≤ (t.filter (fun r => r.file_path == m.filePath)).length :=
      List.length_pos_of_mem hmem
    unfold countKey at h
    omega
  · have hany2 : t.any (fun r => r.file_path == m.filePath) = false :=
      Bool.not_eq_true _ ▸ (by simpa using hany)
    simp only [hany2, Bool.false_eq_true, if_false]
    rw [List.filter_append]
    have hnil : t.filter (fun r => r.file_path == m.filePath) = [] := by
      apply List.filter_eq_nil_iff.mpr
      intro r hr
      intro hmatch
      exact hany (List.any_eq_true.mpr ⟨r, hr, hmatch⟩)
    simp [hnil]

theorem upsertFile_fields (t : Table) (m : FileMeta) (sz : Int) :
    ∀ r ∈ upsertFile t m sz, r.file_path = m.filePath →
      r.phone = m.phone ∧ r.email = m.email ∧ r.call_date = m.callDate ∧
      r.call_time = m.callTime ∧ r.duration_ms = (m.durationMs : Int) ∧
      r.file_size = sz := by
  unfold upsertFile
  by_cases hany : t.any (fun r => r.file_path == m.filePath) = true
  · simp only [hany, if_true]
    intro r hr hpath
    rcases List.mem_map.mp hr with ⟨r0, _, rfl⟩
    by_cases hm : (r0.file_path == m.filePath) = true
    · simp [hm]
    · have hne : r0.file_path ≠ m.filePath := by simpa using hm
      simp only [hm, if_false, Bool.false_eq_true] at hpath
      exact absurd hpath hne
  · have hany2 : t.any (fun r => r.file_path == m.filePath) = false :=
      Bool.not_eq_true _ ▸ (by simpa using hany)
    simp only [hany2, Bool.false_eq_true, if_false]
    intro r hr hpath
    rcases List.mem_append.mp hr with h1 | h1
    · exact absurd (List.any_eq_true.mpr ⟨r, h1, by simp [hpath]⟩) hany
    · rcases List.mem_singleton.mp h1 with rfl
      simp

theorem parseFileMetadata_some_elim (fp : Str) (m : FileMeta)
    (h : parseFileMetadata fp = some m) :
    folderOf fp ≠ [] ∧ filenameOf fp ≠ [] ∧
      parseCallDate (folderOf fp) = some m.callDate ∧ m.filePath = fp := by
  unfold parseFileMetadata at h
  split at h
  · exact absurd h (by simp)
  · rename_i hcond
    push_neg at hcond
    rcases hco : parseCallDate (folderOf fp) with _ | cd
    · rw [hco] at h
      exact absurd h (by simp)
    · rw [hco] at h
      refine ⟨hcond.1, hcond.2, ?_, ?_⟩
      · injection h with h2
        rw [← h2]
      · injection h with h2
        rw [← h2]

theorem parseFileMetadata_none_of_bad_folder (fp : Str)
    (h : (splitOnChar '_' (folderOf fp)).length ≠ 3) :
    parseFileMetadata fp = none := by
  unfold parseFileMetadata
  split
  · rfl
  · have hcd : parseCallDate (folderOf fp) = none := by
      unfold parseCallDate
      simp [h]
    rw [hcd]

/-- C4, amended: in the date-range sync a listing failure on one day
aborts the remaining days.  Days before the failing one are listed and
upserted and their progress persists (the loop body is not wrapped in a
try/catch, so the thrown listing error propagates to the handler's outer
catch), but the days after the failure are never processed and the
response reports failure. -/
theorem syncDateRange_stops_at_err (t : Table) (days1 days2 : List DayListing)
    (h : (syncDateRange t days1).success = true) :
    syncDateRange t (days1 ++ .err :: days2) =
      { table := (syncDateRange t days1).table,
        indexedCount := (syncDateRange t days1).indexedCount,
        success := false } := by
  induction days1 generalizing t with
  | nil => simp [syncDateRange]
  | cons d rest ih =>
    cases d with
    | err => simp [syncDateRange] at h
    | ok files =>
      have h2 : (syncDateRange (if files.length > 0 then indexFiles t files else (t, 0)).1
          rest).success = true := by
        simpa [syncDateRange] using h
      simp only [List.cons_append, syncDateRange, List.append_eq]
      rw [ih _ h2]

/-! ## Claim theorems -/

/-- C3: for every combination of filter parameters, the query with offset 0
and a limit of at least the table size returns exactly `totalCount` rows,
because the count is computed by `statements.countFiles` over the identical
filter predicate. -/
theorem query_count_consistent (t : Table) (f : QueryFilters)
    (hOffset : f.offset = 0) (hLimit : (t.length : Int) ≤ f.limit) :
    (queryFiles t f).files.length = (queryFiles t f).totalCount := by
  show (applyLimit f.limit (applyOffset f.offset
      (sortRows f.sortColumn f.sortDirection (queryMatched t f)))).length =
    (queryMatched t f).length
  have hmatch : (queryMatched t f).length ≤ t.length := List.length_filter_le _ _
  rw [hOffset]
  have hoff : applyOffset 0 (sortRows f.sortColumn f.sortDirection (queryMatched t f)) =
      sortRows f.sortColumn f.sortDirection (queryMatched t f) := by
    simp [applyOffset]
  rw [hoff]
  have hneg : ¬ f.limit < 0 := by omega
  simp only [applyLimit, hneg, if_false]
  rw [List.length_take, length_sortRows]
  omega

/-- Witness for C3 at a one-row table with the default filters. -/
theorem query_count_consistent_witness :
    (({} : QueryFilters).offset = 0 ∧
      ((([⟨strOf "9_26_2025/1.wav", [], [], strOf "2025-09-26", [], 0, 0⟩] : Table).length : Int) ≤
        ({} : QueryFilters).limit)) ∧
    (queryFiles [⟨strOf "9_26_2025/1.wav", [], [], strOf "2025-09-26", [], 0, 0⟩]
        {}).files.length =
      (queryFiles [⟨strOf "9_26_2025/1.wav", [], [], strOf "2025-09-26", [], 0, 0⟩]
        {}).totalCount :=
  ⟨⟨rfl, by decide⟩, query_count_consistent _ _ rfl (by decide)⟩

/-- C8: indexing the same object key N >= 1 times leaves exactly one row for
that key, whose derived columns equal the values of the (deterministic) last
parse; the upsert is keyed by `file_path`. -/
theorem upsert_idempotent (t : Table) (k : Str) (sz : Int) (n : Nat) (m : FileMeta)
    (hn : 1 ≤ n) (hparse : parseFileMetadata k = some m)
    (huniq : countKey t k ≤ 1) :
    countKey (indexFileNTimes t k sz n) k = 1 ∧
    ∀ r ∈ indexFileNTimes t k sz n, r.file_path = k →
      r.phone = m.phone ∧ r.email = m.email ∧ r.call_date = m.callDate ∧
      r.call_time = m.callTime ∧ r.duration_ms = (m.durationMs : Int) ∧
      r.file_size = sz := by
  have hfp : m.filePath = k := (parseFileMetadata_some_elim k m hparse).2.2.2
  subst hfp
  obtain ⟨n', rfl⟩ : ∃ n', n = n' + 1 := ⟨n - 1, by omega⟩
  clear hn
  induction n' generalizing t with
  | zero =>
    simp only [indexFileNTimes, indexFile, hparse]
    exact ⟨countKey_upsertFile t m sz huniq, fun r hr hp => upsertFile_fields t m sz r hr hp⟩
  | succ n' ih =>
    have prev := ih t huniq
    have hstep : indexFileNTimes t m.filePath sz (n' + 1 + 1) =
        upsertFile (indexFileNTimes t m.filePath sz (n' + 1)) m sz := by
      simp only [indexFileNTimes, indexFile, hparse]
    rw [hstep]
    refine ⟨countKey_upsertFile _ m sz (by omega), fun r hr hp => upsertFile_fields _ m sz r hr hp⟩

/-- Witness for C8: indexing the same key three times starting from the
empty table. -/
theorem upsert_idempotent_witness :
    (1 ≤ 3 ∧
      parseFileMetadata (strOf "9_26_2025/123.wav") =
        some (⟨strOf "9_26_2025/123.wav", strOf "123", [], strOf "2025-09-26", [], 0, 0⟩ : FileMeta) ∧
      countKey ([] : Table) (strOf "9_26_2025/123.wav") ≤ 1) ∧
    countKey (indexFileNTimes [] (strOf "9_26_2025/123.wav") 7 3) (strOf "9_26_2025/123.wav") = 1 ∧
    ∀ r ∈ indexFileNTimes [] (strOf "9_26_2025/123.wav") 7 3,
      r.file_path = strOf "9_26_2025/123.wav" →
      r.phone = (⟨strOf "9_26_2025/123.wav", strOf "123", [], strOf "2025-09-26", [], 0, 0⟩ : FileMeta).phone ∧
      r.email = (⟨strOf "9_26_2025/123.wav", strOf "123", [], strOf "2025-09-26", [], 0, 0⟩ : FileMeta).email ∧
      r.call_date = (⟨strOf "9_26_2025/123.wav", strOf "123", [], strOf "2025-09-26", [], 0, 0⟩ : FileMeta).callDate ∧
      r.call_time = (⟨strOf "9_26_2025/123.wav", strOf "123", [], strOf "2025-09-26", [], 0, 0⟩ : FileMeta).callTime ∧
      r.duration_ms = (((⟨strOf "9_26_2025/123.wav", strOf "123", [], strOf "2025-09-26", [], 0, 0⟩ : FileMeta).durationMs : Nat) : Int) ∧
      r.file_size = 7 :=
  ⟨⟨by omega, by decide, by decide⟩,
   upsert_idempotent [] (strOf "9_26_2025/123.wav") 7 3
     ⟨strOf "9_26_2025/123.wav", strOf "123", [], strOf "2025-09-26", [], 0, 0⟩
     (by omega) (by decide) (by decide)⟩

/-- C10: for every key the parser accepts, the facade's
`convertDateFormat` on the key's date folder produces exactly the parser's
normalized `callDate`; hence a date filter given in the record's own
`M_D_YYYY` folder form matches the stored `call_date` exactly (an
equal-date range query finds the row). -/
theorem date_normalizations_agree (fp : Str) (m : FileMeta) (r : FileRow)
    (hparse : parseFileMetadata fp = some m) (hr : r.call_date = m.callDate) :
    convertDateFormat (folderOf fp) = m.callDate ∧
    (queryFiles [r]
      { dateStart := some (folderOf fp), dateEnd := some (folderOf fp) }).totalCount = 1 := by
  obtain ⟨hfold, _, hcd, _⟩ := parseFileMetadata_some_elim fp m hparse
  unfold parseCallDate at hcd
  rcases hsp : splitOnChar '_' (folderOf fp) with _ | ⟨a, _ | ⟨b, _ | ⟨c, _ | ⟨d, rest⟩⟩⟩⟩ <;>
    rw [hsp] at hcd <;> simp only [List.length_nil, List.length_cons] at hcd
  · rw [if_pos (by omega)] at hcd
    exact absurd hcd (by simp)
  · rw [if_pos (by omega)] at hcd
    exact absurd hcd (by simp)
  · rw [if_pos (by omega)] at hcd
    exact absurd hcd (by simp)
  · rw [if_neg (by omega)] at hcd
    have hm : m.callDate = c ++ '-' :: (padStart2 a ++ '-' :: padStart2 b) := by
      simpa [List.getD] using hcd.symm
    have hany : (folderOf fp).any (fun x => x = '_') = true :=
      splitOnChar_length_ge_two_contains '_' _ (by rw [hsp]; simp)
    have hconv : convertDateFormat (folderOf fp) = m.callDate := by
      unfold convertDateFormat
      rw [if_pos hany, hsp, hm]
      simp [List.getD]
    refine ⟨hconv, ?_⟩
    show (queryMatched [r] _).length = 1
    unfold queryMatched coerceDate
    simp only [if_neg hfold]
    rw [hconv]
    unfold matchesWhere
    simp [hr, strLe_refl]
  · rw [if_pos (by omega)] at hcd
    exact absurd hcd (by simp)


/-- Witness for C10 at the scenario key `9_26_2025/123.wav`. -/
theorem date_normalizations_agree_witness :
    (parseFileMetadata (strOf "9_26_2025/123.wav") =
        some (⟨strOf "9_26_2025/123.wav", strOf "123", [], strOf "2025-09-26", [], 0, 0⟩ : FileMeta) ∧
      (⟨strOf "9_26_2025/123.wav", [], [], strOf "2025-09-26", [], 0, 0⟩ : FileRow).call_date =
        (⟨strOf "9_26_2025/123.wav", strOf "123", [], strOf "2025-09-26", [], 0, 0⟩ : FileMeta).callDate) ∧
    convertDateFormat (folderOf (strOf "9_26_2025/123.wav")) =
      (⟨strOf "9_26_2025/123.wav", strOf "123", [], strOf "2025-09-26", [], 0, 0⟩ : FileMeta).callDate ∧
    (queryFiles [⟨strOf "9_26_2025/123.wav", [], [], strOf "2025-09-26", [], 0, 0⟩]
      { dateStart := some (folderOf (strOf "9_26_2025/123.wav"))
        dateEnd := some (folderOf (strOf "9_26_2025/123.wav")) }).totalCount = 1 :=
  ⟨⟨by decide, by decide⟩,
   date_normalizations_agree (strOf "9_26_2025/123.wav")
     ⟨strOf "9_26_2025/123.wav", strOf "123", [], strOf "2025-09-26", [], 0, 0⟩
     ⟨strOf "9_26_2025/123.wav", [], [], strOf "2025-09-26", [], 0, 0⟩
     (by decide) (by decide)⟩

/-- C1: the `durationMode` query parameter is read by the `/api/wav-files`
handler but never reaches `queryFiles` or the SQL, whose only duration
predicate is `duration_ms >= durationMin * 1000`.  First conjunct: the
response is invariant under `durationMode`.  Second conjunct: the failing
input of the claim — with `durationMin=30, durationMode="max"`, a record
with `duration_ms = 50000 > 30000` is returned rather than excluded. -/
theorem durationMode_ignored :
    (∀ (t : Table) (q : WavFilesQuery) (mode : Option Str),
      wavFilesHandler t { q with durationMode := mode } = wavFilesHandler t q) ∧
    (wavFilesHandler [⟨strOf "9_26_2025/1.wav", [], [], strOf "2025-09-26", [], 50000, 0⟩]
      { durationMin := some (strOf "30")
        durationMode := some (strOf "max") }).files =
      [⟨strOf "9_26_2025/1.wav", [], [], strOf "2025-09-26", [], 50000, 0⟩] :=
  ⟨fun _ _ _ => rfl, by decide⟩

/-- C9, counterexample: not every malformed filter value is coerced to "no
filter".  A malformed `dateStart` (here `zzz`, which `convertDateFormat`
passes through verbatim) is used as a literal comparison bound and filters
out every row, while the same query without the filter returns the row, so
the query is not executed "as if that filter were absent". -/
theorem malformed_dateStart_not_ignored :
    (wavFilesHandler [⟨strOf "9_26_2025/1.wav", [], [], strOf "2025-09-26", [], 0, 0⟩]
      { dateStart := some (strOf "zzz") }).files = [] ∧
    (wavFilesHandler [⟨strOf "9_26_2025/1.wav", [], [], strOf "2025-09-26", [], 0, 0⟩]
      {}).files = [⟨strOf "9_26_2025/1.wav", [], [], strOf "2025-09-26", [], 0, 0⟩] := by
  decide

/-- C9, amended: a non-numeric `durationMin` string (JS `parseInt` gives
`NaN`, which is bound as SQL NULL) makes the query execute exactly as if
the duration filter were absent, and the handler still returns a normal
result — the response is literally the same one. -/
theorem malformed_durationMin_coerced (t : Table) (q : WavFilesQuery) (s : Str)
    (hMal : jsParseInt s = none) :
    wavFilesHandler t { q with durationMin := some s } =
      wavFilesHandler t { q with durationMin := none } := by
  have hc : coerceDurationMin (some s) = none := by
    unfold coerceDurationMin
    by_cases hs : s = []
    · simp [hs]
    · simp [hs, hMal]
  unfold wavFilesHandler
  rw [show coerceDurationMin ({ q with durationMin := some s } : WavFilesQuery).durationMin =
    coerceDurationMin (none : Option Str) from hc]

/-- Witness for the amended C9 at `durationMin = "abc"`. -/
theorem malformed_durationMin_coerced_witness :
    jsParseInt (strOf "abc") = none ∧
    wavFilesHandler [⟨strOf "9_26_2025/1.wav", [], [], strOf "2025-09-26", [], 5000, 0⟩]
        { durationMin := some (strOf "abc") } =
      wavFilesHandler [⟨strOf "9_26_2025/1.wav", [], [], strOf "2025-09-26", [], 5000, 0⟩]
        { durationMin := none } :=
  ⟨by decide,
   malformed_durationMin_coerced _ { durationMin := none } (strOf "abc") (by decide)⟩

/-- C2: starting from a bucket with no artifact at K's cache key, a first
request for K (with the source present and the transcode succeeding)
spawns exactly one ffmpeg process and performs exactly one upload, at K's
cache key; a second request for K against the resulting bucket finds the
`HeadObject` probe succeeding and spawns zero processes and performs zero
uploads, whatever its range header and whatever ffmpeg would have done. -/
theorem cache_miss_then_hit (hash : Str → Str) (store : Store) (filename : Str)
    (range1 range2 : Option Str) (out : List Nat) (ff : FfmpegOutcome)
    (hNoCache : storeGet store (audioCacheKey hash (s3KeyOf filename)) = none)
    (hSrc : (storeGet store (s3KeyOf filename)).isSome = true) :
    (audioStreamHandler hash store filename range1 (.exit 0 out)).spawnCount = 1 ∧
    (audioStreamHandler hash store filename range1 (.exit 0 out)).uploads =
      [audioCacheKey hash (s3KeyOf filename)] ∧
    storeGet (audioStreamHandler hash store filename range1 (.exit 0 out)).store
      (audioCacheKey hash (s3KeyOf filename)) ≠ none ∧
    (audioStreamHandler hash (audioStreamHandler hash store filename range1 (.exit 0 out)).store
      filename range2 ff).spawnCount = 0 ∧
    (audioStreamHandler hash (audioStreamHandler hash store filename range1 (.exit 0 out)).store
      filename range2 ff).uploads = [] := by
  obtain ⟨src, hsrc⟩ := Option.isSome_iff_exists.mp hSrc
  have h1 : audioStreamHandler hash store filename range1 (.exit 0 out) =
      { store := storePut store (audioCacheKey hash (s3KeyOf filename)) out
        response :=
          match range1 with
          | some range => serveRanged out range
          | none => .fullBuffer out
        spawnCount := 1
        uploads := [audioCacheKey hash (s3KeyOf filename)]
        tempCleaned := true } := by
    simp only [audioStreamHandler, hNoCache, hsrc]
    simp
  rw [h1]
  have hget := storeGet_storePut_self store (audioCacheKey hash (s3KeyOf filename)) out
  refine ⟨rfl, rfl, by simp [hget], ?_, ?_⟩ <;>
    simp only [audioStreamHandler, hget]

/-- Witness for C2 with a constant hash, a one-object bucket and a trivial
transcode output. -/
theorem cache_miss_then_hit_witness :
    (storeGet [(strOf "recordings/f.wav", [0])]
        (audioCacheKey (fun _ => strOf "h") (s3KeyOf (strOf "f.wav"))) = none ∧
      (storeGet [(strOf "recordings/f.wav", [0])] (s3KeyOf (strOf "f.wav"))).isSome = true) ∧
    (audioStreamHandler (fun _ => strOf "h") [(strOf "recordings/f.wav", [0])] (strOf "f.wav")
      none (.exit 0 [1, 2, 3])).spawnCount = 1 ∧
    (audioStreamHandler (fun _ => strOf "h") [(strOf "recordings/f.wav", [0])] (strOf "f.wav")
      none (.exit 0 [1, 2, 3])).uploads =
      [audioCacheKey (fun _ => strOf "h") (s3KeyOf (strOf "f.wav"))] ∧
    storeGet (audioStreamHandler (fun _ => strOf "h") [(strOf "recordings/f.wav", [0])]
        (strOf "f.wav") none (.exit 0 [1, 2, 3])).store
      (audioCacheKey (fun _ => strOf "h") (s3KeyOf (strOf "f.wav"))) ≠ none ∧
    (audioStreamHandler (fun _ => strOf "h")
      (audioStreamHandler (fun _ => strOf "h") [(strOf "recordings/f.wav", [0])] (strOf "f.wav")
        none (.exit 0 [1, 2, 3])).store
      (strOf "f.wav") none .spawnError).spawnCount = 0 ∧
    (audioStreamHandler (fun _ => strOf "h")
      (audioStreamHandler (fun _ => strOf "h") [(strOf "recordings/f.wav", [0])] (strOf "f.wav")
        none (.exit 0 [1, 2, 3])).store
      (strOf "f.wav") none .spawnError).uploads = [] :=
  ⟨⟨by decide, by decide⟩,
   cache_miss_then_hit (fun _ => strOf "h") [(strOf "recordings/f.wav", [0])]
     (strOf "f.wav") none none [1, 2, 3] .spawnError (by decide) (by decide)⟩

/-- C5: on a cache miss with the source present, a spawn error or a
non-zero ffmpeg exit yields a server-error response, leaves the bucket
unchanged (in particular nothing is uploaded at the cache key), performs
zero uploads, and the temp file is removed. -/
theorem transcode_failure_clean (hash : Str → Str) (store : Store) (filename : Str)
    (range : Option Str) (ff : FfmpegOutcome)
    (hNoCache : storeGet store (audioCacheKey hash (s3KeyOf filename)) = none)
    (hSrc : (storeGet store (s3KeyOf filename)).isSome = true)
    (hFail : ff = .spawnError ∨ ∃ c out, ff = .exit c out ∧ c ≠ 0) :
    (∃ msg, (audioStreamHandler hash store filename range ff).response = .serverError msg) ∧
    (audioStreamHandler hash store filename range ff).store = store ∧
    (audioStreamHandler hash store filename range ff).uploads = [] ∧
    (audioStreamHandler hash store filename range ff).tempCleaned = true := by
  obtain ⟨src, hsrc⟩ := Option.isSome_iff_exists.mp hSrc
  rcases hFail with rfl | ⟨c, out, rfl, hc⟩
  · simp [audioStreamHandler, hNoCache, hsrc]
  · simp [audioStreamHandler, hNoCache, hsrc, hc]

/-- Witness for C5 at a non-zero ffmpeg exit. -/
theorem transcode_failure_clean_witness :
    (storeGet [(strOf "recordings/f.wav", [0])]
        (audioCacheKey (fun _ => strOf "h") (s3KeyOf (strOf "f.wav"))) = none ∧
      (storeGet [(strOf "recordings/f.wav", [0])] (s3KeyOf (strOf "f.wav"))).isSome = true ∧
      ((FfmpegOutcome.exit 1 [9]) = .spawnError ∨
        ∃ c out, (FfmpegOutcome.exit 1 [9]) = .exit c out ∧ c ≠ 0)) ∧
    (∃ msg, (audioStreamHandler (fun _ => strOf "h") [(strOf "recordings/f.wav", [0])]
      (strOf "f.wav") none (.exit 1 [9])).response = .serverError msg) ∧
    (audioStreamHandler (fun _ => strOf "h") [(strOf "recordings/f.wav", [0])]
      (strOf "f.wav") none (.exit 1 [9])).store = [(strOf "recordings/f.wav", [0])] ∧
    (audioStreamHandler (fun _ => strOf "h") [(strOf "recordings/f.wav", [0])]
      (strOf "f.wav") none (.exit 1 [9])).uploads = [] ∧
    (audioStreamHandler (fun _ => strOf "h") [(strOf "recordings/f.wav", [0])]
      (strOf "f.wav") none (.exit 1 [9])).tempCleaned = true :=
  ⟨⟨by decide, by decide, Or.inr ⟨1, [9], rfl, one_ne_zero⟩⟩,
   transcode_failure_clean (fun _ => strOf "h") [(strOf "recordings/f.wav", [0])]
     (strOf "f.wav") none (.exit 1 [9]) (by decide) (by decide)
     (Or.inr ⟨1, [9], rfl, one_ne_zero⟩)⟩

/-- C7: on the cache-miss serve path, for a transcoded buffer of length
L >= 200, the header `Range: bytes=100-199` is answered with status 206,
`Content-Range: bytes 100-199/L`, `Content-Length` 100, and a body of
exactly 100 bytes — bytes 100 through 199 of the buffer. -/
theorem range_request_correct (hash : Str → Str) (store : Store) (filename : Str)
    (fileData : List Nat)
    (hNoCache : storeGet store (audioCacheKey hash (s3KeyOf filename)) = none)
    (hSrc : (storeGet store (s3KeyOf filename)).isSome = true)
    (hLen : 200 ≤ fileData.length) :
    (audioStreamHandler hash store filename (some (strOf "bytes=100-199"))
        (.exit 0 fileData)).response =
      .rangedBuffer 206 (strOf "bytes 100-199/" ++ natToStr fileData.length) (.int 100)
        ((fileData.drop 100).take 100) ∧
    ((fileData.drop 100).take 100).length = 100 := by
  obtain ⟨src, hsrc⟩ := Option.isSome_iff_exists.mp hSrc
  constructor
  · have hresp : (audioStreamHandler hash store filename (some (strOf "bytes=100-199"))
        (.exit 0 fileData)).response = serveRanged fileData (strOf "bytes=100-199") := by
      simp [audioStreamHandler, hNoCache, hsrc]
    rw [hresp]
    have hparts : splitOnChar '-' (replaceFirst (strOf "bytes=100-199") (strOf "bytes=")) =
        [strOf "100", strOf "199"] := by decide
    have h100 : jsParseIntNum (strOf "100") = .int 100 := by decide
    have h199 : jsParseIntNum (strOf "199") = .int 199 := by decide
    have hslice : jsSlice fileData 100 200 = (fileData.drop 100).take 100 := by
      unfold jsSlice jsSliceIdx
      rw [if_neg (by norm_num), if_neg (by norm_num)]
      have ha : (min (200 : Int) ((fileData.length : Nat) : Int)).toNat = 200 := by omega
      have hb : (min (100 : Int) ((fileData.length : Nat) : Int)).toNat = 100 := by omega
      rw [ha, hb, List.drop_take]
    simp only [serveRanged, hparts, List.getD_cons_zero, List.getD_cons_succ, h100, h199]
    rw [if_pos (show strOf "199" ≠ [] by decide)]
    simp only [JsNum.sub, JsNum.addInt, JsNum.toInteger]
    norm_num [hslice]
    rfl
  · rw [List.length_take, List.length_drop]
    omega

/-- Witness for C7 on a concrete 256-byte buffer. -/
theorem range_request_correct_witness :
    (storeGet [(strOf "recordings/f.wav", [0])]
        (audioCacheKey (fun _ => strOf "h") (s3KeyOf (strOf "f.wav"))) = none ∧
      (storeGet [(strOf "recordings/f.wav", [0])] (s3KeyOf (strOf "f.wav"))).isSome = true ∧
      200 ≤ (List.range 256).length) ∧
    (audioStreamHandler (fun _ => strOf "h") [(strOf "recordings/f.wav", [0])] (strOf "f.wav")
        (some (strOf "bytes=100-199")) (.exit 0 (List.range 256))).response =
      .rangedBuffer 206 (strOf "bytes 100-199/" ++ natToStr (List.range 256).length)
        (.int 100) (((List.range 256).drop 100).take 100) ∧
    (((List.range 256).drop 100).take 100).length = 100 :=
  ⟨⟨by decide, by decide, by decide⟩,
   range_request_correct (fun _ => strOf "h") [(strOf "recordings/f.wav", [0])]
     (strOf "f.wav") (List.range 256) (by decide) (by decide) (by decide)⟩

/-- C4, counterexample: with day 1 listing one file, day 2 failing, and
day 3 listing another file, the sync indexes only the day-1 file — the
day-3 file is absent from the resulting table (a lone sync of day 3 would
have indexed it) and the endpoint responds with the error JSON, so a
per-day failure does prevent the remaining days from being upserted. -/
theorem sync_day_failure_aborts_rest :
    (syncDateRange []
      [DayListing.ok [strOf "9_26_2025/1.wav"], DayListing.err,
        DayListing.ok [strOf "9_28_2025/3.wav"]]).success = false ∧
    (syncDateRange []
      [DayListing.ok [strOf "9_26_2025/1.wav"], DayListing.err,
        DayListing.ok [strOf "9_28_2025/3.wav"]]).table.all
      (fun r => !(r.file_path == strOf "9_28_2025/3.wav")) = true ∧
    (syncDateRange [] [DayListing.ok [strOf "9_28_2025/3.wav"]]).table.any
      (fun r => r.file_path == strOf "9_28_2025/3.wav") = true := by
  decide

/-- Witness for the amended C4: one successful day, then the failure, then
a day that is never reached. -/
theorem syncDateRange_stops_at_err_witness :
    (syncDateRange [] [DayListing.ok [strOf "9_26_2025/1.wav"]]).success = true ∧
    syncDateRange []
        ([DayListing.ok [strOf "9_26_2025/1.wav"]] ++
          DayListing.err :: [DayListing.ok [strOf "9_28_2025/3.wav"]]) =
      { table := (syncDateRange [] [DayListing.ok [strOf "9_26_2025/1.wav"]]).table
        indexedCount := (syncDateRange [] [DayListing.ok [strOf "9_26_2025/1.wav"]]).indexedCount
        success := false } :=
  ⟨by decide,
   syncDateRange_stops_at_err [] [DayListing.ok [strOf "9_26_2025/1.wav"]]
     [DayListing.ok [strOf "9_28_2025/3.wav"]] (by decide)⟩

/-- C6, counterexample: the code never checks that the three
underscore-separated date-folder tokens are numeric.  The key
`a_b_c/x.wav`, whose folder has three non-numeric tokens, is not rejected:
it parses to a record with the garbage `callDate` `c-0a-0b`, contradicting
"parse returns null" as well as the zero-padded ISO form. -/
theorem nonnumeric_date_folder_not_rejected :
    (parseFileMetadata (strOf "a_b_c/x.wav")).isSome = true ∧
    (parseFileMetadata (strOf "a_b_c/x.wav")).map FileMeta.callDate =
      some (strOf "c-0a-0b") := by
  decide

/-- C6, amended: `parseFileMetadata` returns null exactly on date-folder
shape, not content: any key whose folder does not split into exactly three
underscore-separated tokens is rejected, and any key with three tokens
(numeric or not) and a non-empty folder and filename parses, with
`callDate` rebuilt as `year-month-day` zero-padding month and day to two
characters (the ISO form when the tokens are numeric M, D, YYYY). -/
theorem parse_date_folder_shape (fp : Str) :
    ((splitOnChar '_' (folderOf fp)).length ≠ 3 → parseFileMetadata fp = none) ∧
    (∀ mo dy yr : Str, folderOf fp ≠ [] → filenameOf fp ≠ [] →
      splitOnChar '_' (folderOf fp) = [mo, dy, yr] →
      ∃ meta, parseFileMetadata fp = some meta ∧
        meta.callDate = yr ++ '-' :: (padStart2 mo ++ '-' :: padStart2 dy)) := by
  constructor
  · exact parseFileMetadata_none_of_bad_folder fp
  · intro mo dy yr h1 h2 hsp
    have hcd : parseCallDate (folderOf fp) =
        some (yr ++ '-' :: (padStart2 mo ++ '-' :: padStart2 dy)) := by
      unfold parseCallDate
      rw [hsp]
      simp [List.getD]
    refine ⟨⟨fp, (filenameOf fp).takeWhile Char.isDigit, matchEmail (filenameOf fp),
      yr ++ '-' :: (padStart2 mo ++ '-' :: padStart2 dy), parseCallTime (filenameOf fp),
      matchDuration (filenameOf fp), 0⟩, ?_, rfl⟩
    unfold parseFileMetadata
    rw [if_neg (by push_neg; exact ⟨h1, h2⟩), hcd]

/-- Witness for the amended C6: `2025-09-26/x.wav` (one token) is
rejected; `9_26_2025/x.wav` (three tokens) parses with the zero-padded ISO
date. -/
theorem parse_date_folder_shape_witness :
    ((splitOnChar '_' (folderOf (strOf "2025-09-26/x.wav"))).length ≠ 3 ∧
      parseFileMetadata (strOf "2025-09-26/x.wav") = none) ∧
    (folderOf (strOf "9_26_2025/x.wav") ≠ [] ∧ filenameOf (strOf "9_26_2025/x.wav") ≠ [] ∧
      splitOnChar '_' (folderOf (strOf "9_26_2025/x.wav")) =
        [strOf "9", strOf "26", strOf "2025"]) ∧
    (∃ meta, parseFileMetadata (strOf "9_26_2025/x.wav") = some meta ∧
      meta.callDate = strOf "2025" ++ '-' ::
        (padStart2 (strOf "9") ++ '-' :: padStart2 (strOf "26"))) :=
  ⟨⟨by decide, (parse_date_folder_shape (strOf "2025-09-26/x.wav")).1 (by decide)⟩,
   ⟨by decide, by decide, by decide⟩,
   (parse_date_folder_shape (strOf "9_26_2025/x.wav")).2 (strOf "9") (strOf "26")
     (strOf "2025") (by decide) (by decide) (by decide)⟩

end Recbot
